import Mathlib

/-!
# ProductForge backend core — shallow embedding

This file embeds, in Lean, the indexed job queue, agent registry, result
store and workflow-state derivation engine of the ProductForge backend
(`src/core/redis_client.py`, `src/services/agent_service.py`,
`src/services/task_service.py`, `src/services/result_service.py`,
`src/services/orchestration_service.py`, and the legacy paths in
`src/main.py`), and proves the spec's claims about them.

Modelling conventions:

* The Redis store is modelled as a record of association lists, one per key
  namespace (`agent:*`, `agents_index`, `result:*`, `results_index`,
  `workflow:*`, `workflows_index`, and the job queues).  Key namespaces are
  disjoint in the source, so splitting them into fields is faithful.
* Wall-clock time (`datetime.now()` / `datetime.utcnow()` /`time.time()`)
  is an explicit `now : Nat` parameter; ISO timestamp strings and their
  numeric scores are both modelled as that `Nat` (`_iso_to_ts` on a
  timestamp produced by the model always succeeds; the Python `x or now`
  fallback, which also fires on the falsy epoch value `0.0`, is kept as
  `pyOr`).
* Absent-or-falsy JSON fields (`None` and `""` timestamps, absent
  `depends_on`, `None` agent names) are modelled as `Option` values, with
  Python truthiness tests translated to `Option`/emptiness tests.
* Floats that are only copied, never computed with (`execution_time`,
  `confidence_score`), are modelled as `Option Nat`; TTL expiry and the
  in-process `lru_cache` (which only caches names, is invalidated on every
  write, and is never read on the claimed paths) are not modelled.
* `uuid4()` job/workflow ids are taken from an ambient supply of strings
  (`ids : Nat → String`), consumed in call order.
-/

/-- First-match lookup in an association list (Redis `GET key`). -/
def alookup {α : Type} (l : List (String × α)) (k : String) : Option α :=
  match l with
  | [] => none
  | (k', v) :: rest => if k' = k then some v else alookup rest k

/-- Write-through update in an association list (Redis `SET key v`):
replaces the first binding of `k`, or appends a fresh one. -/
def aset {α : Type} (l : List (String × α)) (k : String) (v : α) : List (String × α) :=
  match l with
  | [] => [(k, v)]
  | (k', v') :: rest => if k' = k then (k, v) :: rest else (k', v') :: aset rest k v

/-- Key removal (Redis `DEL key`). -/
def adel {α : Type} (l : List (String × α)) (k : String) : List (String × α) :=
  match l with
  | [] => []
  | (k', v') :: rest => if k' = k then adel rest k else (k', v') :: adel rest k

/-- Number of bindings of key `k` (used to state "exactly one record"). -/
def countKey {α : Type} (l : List (String × α)) (k : String) : Nat :=
  l.countP (fun p => decide (p.1 = k))

/-- Python `x or now` on an optional numeric timestamp: the fallback also
fires on the falsy value `0` (`0.0 or now` is `now` in Python). -/
def pyOr (v : Option Nat) (d : Nat) : Nat :=
  match v with
  | some 0 => d
  | some t => t
  | none => d

/-- Redis `ZADD idx {member: score}`: updates the member's score in place
or inserts the member. -/
def zadd (idx : List (String × Nat)) (member : String) (score : Nat) :
    List (String × Nat) :=
  aset idx member score

/-- Insert one member into a list sorted by descending score; ties are
ordered by descending member string, matching Redis `ZREVRANGE` tie
ordering (reverse lexicographic). -/
def insDesc (x : String × Nat) : List (String × Nat) → List (String × Nat)
  | [] => [x]
  | y :: ys =>
      if y.2 < x.2 ∨ (x.2 = y.2 ∧ y.1 < x.1) then x :: y :: ys
      else y :: insDesc x ys

/-- Sort a sorted-set representation by descending score. -/
def sortDesc : List (String × Nat) → List (String × Nat)
  | [] => []
  | x :: xs => insDesc x (sortDesc xs)

/-- Redis `ZREVRANGE idx 0 (limit-1)` for a positive `limit`: the `limit`
members with the highest scores, highest first.  (The Redis negative-stop
convention for `limit = 0` is not used by any modelled caller.) -/
def zrevrangeN (idx : List (String × Nat)) (limit : Nat) : List String :=
  ((sortDesc idx).take limit).map (fun p => p.1)

/-- Substring test on character lists, Python `pat in hay` semantics
(the empty pattern is contained everywhere). -/
def isPrefixList : List Char → List Char → Bool
  | [], _ => true
  | _ :: _, [] => false
  | a :: as, b :: bs => a = b && isPrefixList as bs

/-- `isInfixList p h`: `p` occurs contiguously inside `h`. -/
def isInfixList (p : List Char) (h : List Char) : Bool :=
  match h with
  | [] => p.isEmpty
  | _ :: t => isPrefixList p h || isInfixList p t

/-- Python `pat in hay` on strings. -/
def containsSub (hay pat : String) : Bool :=
  isInfixList pat.data hay.data

/-- Python `str.lower()` (keywords are ASCII, so `Char.toLower` agrees). -/
def lowerStr (s : String) : String :=
  String.mk (s.data.map Char.toLower)

/-- `models/agent_models.py` `Agent` (pydantic). -/
structure Agent where
  name : String
  role : String
  description : Option String := none
  skills : List String := []
  model : Option String := some "gpt-4o-mini"
  task_count : Nat := 0
  created_at : Option Nat := none
  last_assigned : Option Nat := none
deriving DecidableEq, Repr

/-- `models/results_models.py` `TaskRequest` (pydantic). -/
structure TaskRequest where
  job : String
  agent_name : Option String := none
  priority : String := "normal"
  requires_qa : Bool := false
deriving DecidableEq, Repr

/-- `models/results_models.py` `EnhancedResult`, restricted to the fields
the modelled paths read.  `timestamp = none` models both an absent and an
empty (falsy) timestamp, which every modelled path treats alike. -/
structure ResultRec where
  job_id : String
  agent : Option String := none
  role : Option String := none
  status : String := "completed"
  output : Option String := none
  workflow_id : Option String := none
  execution_time : Option Nat := none
  confidence_score : Option Nat := none
  timestamp : Option Nat := none
deriving DecidableEq, Repr

/-- One workflow step descriptor, as built by
`orchestration_service._enqueue` and mutated by `get_workflow_status`. -/
structure Step where
  step : String
  agent : String
  job_id : String
  status : String
  depends_on : Option String := none
  output : Option String := none
  execution_time : Option Nat := none
  confidence_score : Option Nat := none
deriving DecidableEq, Repr

/-- The stored `workflow:{id}` JSON document. -/
structure Workflow where
  workflow_id : String
  original_task : String
  steps : List Step
  status : String
  qa_enabled : Bool
  created_at : Nat
  completed_at : Option Nat := none
deriving DecidableEq, Repr

/-- A serialized job descriptor pushed onto a queue.  The dispatcher and
the orchestrator build JSON dicts with different key sets; fields absent
from a given payload are `none`. -/
structure JobPayload where
  job_id : String
  job : String
  task : Option String := none
  agent_name : String
  priority : Option String := none
  requires_qa : Option Bool := none
  workflow_id : Option String := none
  step : Option String := none
  parent_job_id : Option String := none
  created_at : Nat
  mode : String
deriving DecidableEq, Repr

/-- The Redis store, split by key namespace. -/
structure Store where
  agents : List (String × Agent) := []
  agentsIndex : List (String × Nat) := []
  results : List (String × ResultRec) := []
  resultsIndex : List (String × Nat) := []
  workflows : List (String × Workflow) := []
  workflowsIndex : List (String × Nat) := []
  queues : List (String × List JobPayload) := []
deriving DecidableEq, Repr

/-- Contents of one named queue (Redis list), head first. -/
def qlookup (qs : List (String × List JobPayload)) (name : String) :
    List JobPayload :=
  (alookup qs name).getD []

/-- Redis `LPUSH name payload`: prepend to the named queue. -/
def qpush (qs : List (String × List JobPayload)) (name : String)
    (payload : JobPayload) : List (String × List JobPayload) :=
  aset qs name (payload :: qlookup qs name)

/-! ## Agent registry (`src/services/agent_service.py`) -/

/-- `AgentService.create_agent`: stamps `created_at`, resets `task_count`
to 0, writes `agent:{name}` unconditionally (no duplicate check, no name
normalization), and updates the agents index via `index_agent`, whose
score is `_iso_to_ts(created_at) or time.time()`. -/
def create_agent (s : Store) (now : Nat) (a : Agent) : Store :=
  let a' := { a with created_at := some now, task_count := 0 }
  { s with
    agents := aset s.agents a'.name a'
    agentsIndex := zadd s.agentsIndex a'.name (pyOr a'.created_at now) }

/-- `AgentService.get_agent`. -/
def get_agent (s : Store) (name : String) : Option Agent :=
  alookup s.agents name

/-- `core/redis_client.list_agents_index`: `ZREVRANGE agents_index 0 limit-1`. -/
def list_agents_index (s : Store) (limit : Nat) : List String :=
  zrevrangeN s.agentsIndex limit

/-- `AgentService.list_agents`: names from the index (limit 200), records
batch-fetched; index entries whose record is missing are dropped. -/
def list_agents (s : Store) : List Agent :=
  (list_agents_index s 200).filterMap (fun n => alookup s.agents n)

/-- `AgentService.delete_agent`: deletes only the `agent:{name}` key
(never the index entry) and reports whether the key existed. -/
def delete_agent (s : Store) (name : String) : Store × Bool :=
  ({ s with agents := adel s.agents name }, (alookup s.agents name).isSome)

/-- `AgentService.increment_task_count`: read-modify-write; silently a
no-op when the agent record is missing. -/
def increment_task_count (s : Store) (now : Nat) (name : String) : Store :=
  match alookup s.agents name with
  | some a =>
      let a' := { a with task_count := a.task_count + 1, last_assigned := some now }
      { s with agents := aset s.agents name a' }
  | none => s

/-- Bootstrap agent 1 of `AgentService.create_default_agents`. -/
def gaAgent : Agent :=
  { name := "general_assistant", role := "Assistant"
    description := some "General-purpose AI assistant for various tasks"
    skills := ["general_help", "analysis", "writing"] }

/-- Bootstrap agent 2 of `AgentService.create_default_agents`. -/
def azAgent : Agent :=
  { name := "analyzer_bot", role := "Analyze"
    description := some "Reads uploaded projects and generates structured analysis reports"
    skills := ["code_summary", "file_classification", "architecture_analysis"] }

/-- Bootstrap agent 3 of `AgentService.create_default_agents`. -/
def qaAgentRec : Agent :=
  { name := "qa_bot", role := "QA"
    description := some "Reviews AI outputs and scores their correctness"
    skills := ["evaluation", "fact_check", "quality_review"] }

/-- Bootstrap agent 4 of `AgentService.create_default_agents`. -/
def dbAgent : Agent :=
  { name := "debugger_bot", role := "Debug"
    description := some "Runs code lint and identifies errors or logic gaps"
    skills := ["static_analysis", "error_fix", "performance_optimization"] }

/-- The fixed bootstrap agents of `AgentService.create_default_agents`. -/
def defaultAgents : List Agent :=
  [gaAgent, azAgent, qaAgentRec, dbAgent]

/-- One iteration of the `create_default_agents` loop: create the agent
only if its `agent:{name}` key does not already exist. -/
def ensureAgent (s : Store) (now : Nat) (a : Agent) : Store :=
  if (alookup s.agents a.name).isSome then s else create_agent s now a

/-- `AgentService.create_default_agents`. -/
def create_default_agents (s : Store) (now : Nat) : Store :=
  defaultAgents.foldl (fun st a => ensureAgent st now a) s

/-! ## Job dispatcher (`src/services/task_service.py`) -/

/-- The keyword chain of `TaskService._auto_assign_agent` for a non-empty
agent list: three keyword rows (QA, Debug, Analyze); each matched row
returns the first agent of that role, or `"general_assistant"` when no
such agent exists; an unmatched text falls through to
`"general_assistant"`.  There is no `Developer` row on this path. -/
def assignFromAgents (agents : List Agent) (job_description : String) : String :=
  let job_lower := lowerStr job_description
  if ["test", "qa", "quality", "validate", "verify"].any
      (fun w => containsSub job_lower w) then
    match agents.find? (fun a => a.role = "QA") with
    | some a => a.name
    | none => "general_assistant"
  else if ["debug", "fix", "error", "bug"].any
      (fun w => containsSub job_lower w) then
    match agents.find? (fun a => a.role = "Debug") with
    | some a => a.name
    | none => "general_assistant"
  else if ["analyze", "review", "audit", "inspect"].any
      (fun w => containsSub job_lower w) then
    match agents.find? (fun a => a.role = "Analyze") with
    | some a => a.name
    | none => "general_assistant"
  else "general_assistant"

/-- `TaskService._auto_assign_agent`: when the registry lists no agents it
bootstraps the defaults and returns `"general_assistant"` directly;
otherwise it runs the keyword chain. -/
def autoAssignAgent (s : Store) (now : Nat) (job_description : String) :
    Store × String :=
  let agents := list_agents s
  if agents.isEmpty then (create_default_agents s now, "general_assistant")
  else (s, assignFromAgents agents job_description)

/-- The legacy `main.py` `auto_assign_agent` keyword chain for a non-empty
agent list: four rows, matching roles `"QA"`, `"Debugger"`, `"Analyzer"`,
`"Developer"` (note: not the `"Debug"`/`"Analyze"` role names the default
agents carry). -/
def mainAutoAssign (agents : List Agent) (job_description : String) : String :=
  let job_lower := lowerStr job_description
  if ["test", "qa", "quality", "validate", "verify"].any
      (fun w => containsSub job_lower w) then
    ((agents.find? (fun a => a.role = "QA")).map Agent.name).getD "general_assistant"
  else if ["debug", "fix", "error", "bug"].any
      (fun w => containsSub job_lower w) then
    ((agents.find? (fun a => a.role = "Debugger")).map Agent.name).getD "general_assistant"
  else if ["analyze", "review", "audit", "inspect"].any
      (fun w => containsSub job_lower w) then
    ((agents.find? (fun a => a.role = "Analyzer")).map Agent.name).getD "general_assistant"
  else if ["code", "develop", "implement", "create"].any
      (fun w => containsSub job_lower w) then
    ((agents.find? (fun a => a.role = "Developer")).map Agent.name).getD "general_assistant"
  else "general_assistant"

/-- The `if not task.agent_name` auto-assignment guard of
`TaskService.queue_task`: a `None` or empty (falsy) agent name triggers
auto-assignment, otherwise the explicit name is kept. -/
def resolveAgent (s : Store) (now : Nat) (task : TaskRequest) : Store × String :=
  match task.agent_name with
  | some a => if a = "" then autoAssignAgent s now task.job else (s, a)
  | none => autoAssignAgent s now task.job

/-- `TaskService.queue_task`: resolves the agent (auto-assign when
`agent_name` is `None` or empty/falsy), builds the payload, increments the
target agent's task count, and pushes the payload onto `queue_{priority}`
(or `queue` for `"normal"`). -/
def queue_task (s : Store) (now : Nat) (jid : String) (task : TaskRequest) :
    Store × String × String :=
  let sa := resolveAgent s now task
  let s1 := sa.1
  let aname := sa.2
  let payload : JobPayload :=
    { job_id := jid, job := task.job, task := some task.job
      agent_name := aname, priority := some task.priority
      requires_qa := some task.requires_qa, created_at := now
      mode := "agent_dispatch" }
  let s2 := increment_task_count s1 now aname
  let queue_name := if task.priority ≠ "normal" then "queue_" ++ task.priority else "queue"
  let s3 := { s2 with queues := qpush s2.queues queue_name payload }
  (s3, aname, queue_name)

/-- Sequential dispatch of a batch of `(job_id, task)` pairs through
`queue_task` (each call is one `POST /tasks` dispatch). -/
def dispatchList (s : Store) (now : Nat) :
    List (String × TaskRequest) → Store
  | [] => s
  | (jid, t) :: rest => dispatchList (queue_task s now jid t).1 now rest

/-! ## Result store (`src/core/redis_client.py`, `src/services/result_service.py`) -/

/-- `core/redis_client.store_result`: stamps a missing timestamp with the
current UTC time, writes `result:{job_id}` (TTL not modelled), and indexes
the job id under `_iso_to_ts(timestamp) or time.time()` — the result's own
timestamp, not the wall-clock write time. -/
def store_result (s : Store) (now : Nat) (jid : String) (res : ResultRec) : Store :=
  let res' := if res.timestamp.isNone then { res with timestamp := some now } else res
  { s with
    results := aset s.results jid res'
    resultsIndex := zadd s.resultsIndex jid (pyOr res'.timestamp now) }

/-- `core/redis_client.get_result`. -/
def get_result (s : Store) (jid : String) : Option ResultRec :=
  alookup s.results jid

/-- `core/redis_client.list_results`: latest-first job ids from the index,
records batch-fetched, missing records dropped. -/
def list_results (s : Store) (limit : Nat) : List ResultRec :=
  (zrevrangeN s.resultsIndex limit).filterMap (fun jid => alookup s.results jid)

/-- `ResultService.save_result`: replaces a missing-or-empty (falsy)
timestamp with the current UTC time, then delegates to `store_result`
keyed by the result's own `job_id`. -/
def save_result (s : Store) (now : Nat) (r : ResultRec) : Store :=
  let payload := if r.timestamp.isNone then { r with timestamp := some now } else r
  store_result s now r.job_id payload

/-! ## Workflow orchestrator (`src/services/orchestration_service.py`) -/

/-- The output-preview truncation of `get_workflow_status`: non-empty
outputs longer than 300 characters are cut to 300 plus `"..."`. -/
def truncateOutput (o : Option String) : String :=
  let snippet := o.getD ""
  if snippet ≠ "" ∧ snippet.length > 300 then snippet.take 300 ++ "..." else snippet

/-- One iteration of the `get_workflow_status` step loop.  Returns the
updated step, whether it now counts as completed, and whether the step
dict was mutated. -/
def refreshStep (s : Store) (st : Step) : Step × Bool × Bool :=
  if st.status = "completed" then (st, true, false)
  else
    match alookup s.results st.job_id with
    | some res =>
        ({ st with
            status := "completed"
            output := some (truncateOutput res.output)
            execution_time := res.execution_time
            confidence_score := res.confidence_score }, true, true)
    | none =>
        if st.status = "queued" then ({ st with status := "processing" }, false, true)
        else (st, false, false)

/-- The full step loop: updated steps, completed count, and the combined
`changed` flag. -/
def refreshSteps (s : Store) : List Step → List Step × Nat × Bool
  | [] => ([], 0, false)
  | st :: rest =>
      let r := refreshStep s st
      let rr := refreshSteps s rest
      (r.1 :: rr.1, (if r.2.1 then 1 else 0) + rr.2.1, r.2.2 || rr.2.2)

/-- `OrchestrationService.get_workflow_status`: derives step completion
from `result:{job_id}` existence, relabels result-less `queued` steps as
`processing`, marks the workflow `completed` (with `completed_at`) when
every step is completed, and writes the record back iff anything changed.
Returns the updated store and the returned workflow (`none` models the
`"Workflow not found"` error reply). -/
def get_workflow_status (s : Store) (now : Nat) (wid : String) :
    Store × Option Workflow :=
  match alookup s.workflows wid with
  | none => (s, none)
  | some wf =>
      let rr := refreshSteps s wf.steps
      let wf1 := { wf with steps := rr.1 }
      let doComplete := rr.2.1 = rr.1.length ∧ wf1.status ≠ "completed"
      let wf2 :=
        if doComplete then { wf1 with status := "completed", completed_at := some now }
        else wf1
      let changed := rr.2.2 || decide doComplete
      let s' :=
        if changed then { s with workflows := aset s.workflows wid wf2 } else s
      (s', some wf2)

/-- `OrchestrationService._auto_assign_agent_sync`: the orchestrator's own
keyword chain over hard-coded agent names (consulted only to pick the
specialist step's agent).  The registry-bootstrap branch only mutates the
agent namespace and never changes the returned name, so the returned name
is modelled directly. -/
def autoAssignAgentSync (job_description : String) : String :=
  let text := lowerStr job_description
  if ["test", "qa", "quality", "validate", "verify"].any
      (fun w => containsSub text w) then "qa_bot"
  else if ["debug", "fix", "error", "bug"].any
      (fun w => containsSub text w) then "debugger_bot"
  else if ["analyze", "review", "audit", "inspect"].any
      (fun w => containsSub text w) then "analyzer_bot"
  else "general_assistant"

/-- `OrchestrationService._enqueue` (the closure inside
`orchestrate_multi_agent`): pushes the step's job payload onto `queue` and
appends the step descriptor; the `depends_on` key is present only when the
parent id is truthy (a non-empty string). -/
def enqueueStep (s : Store) (now : Nat) (wid : String) (stepName agent jobText : String)
    (jid : String) (parent : Option String) : Store × Step :=
  let payload : JobPayload :=
    { job_id := jid, workflow_id := some wid, job := jobText
      agent_name := agent, step := some stepName, parent_job_id := parent
      created_at := now, mode := stepName }
  let dependsOn := match parent with
    | some p => if p = "" then none else some p
    | none => none
  ({ s with queues := qpush s.queues "queue" payload },
   { step := stepName, agent := agent, job_id := jid, status := "queued"
     depends_on := dependsOn })

/-- `OrchestrationService.orchestrate_multi_agent`: bootstraps default
agents, auto-assigns the specialist, enqueues 2 steps (4 when QA is
requested) chained by `depends_on`, and persists the workflow document and
its index entry.  `ids n` supplies the `n`-th `uuid4()` job id. -/
def orchestrate_multi_agent (s : Store) (now : Nat) (wid : String)
    (ids : Nat → String) (task : TaskRequest) : Store × Workflow :=
  let s0 := create_default_agents s now
  let specialist := autoAssignAgentSync task.job
  let e1 := enqueueStep s0 now wid "admin_analysis" "general_assistant"
    ("Analyze task and produce execution plan: " ++ task.job) (ids 0) none
  let e2 := enqueueStep e1.1 now wid "specialist_execution" specialist
    task.job (ids 1) (some (ids 0))
  let se : Store × List Step :=
    if task.requires_qa then
      let e3 := enqueueStep e2.1 now wid "qa_validation" "qa_bot"
        ("Review and evaluate specialist output for: " ++ task.job) (ids 2) (some (ids 1))
      let e4 := enqueueStep e3.1 now wid "admin_feedback" "general_assistant"
        ("Provide final summary and recommendations for: " ++ task.job) (ids 3) (some (ids 2))
      (e4.1, [e1.2, e2.2, e3.2, e4.2])
    else (e2.1, [e1.2, e2.2])
  let wf : Workflow :=
    { workflow_id := wid, original_task := task.job, steps := se.2
      status := "running", qa_enabled := task.requires_qa, created_at := now }
  ({ se.1 with
      workflows := aset se.1.workflows wid wf
      workflowsIndex := zadd se.1.workflowsIndex wid now }, wf)

/-! ## The spec's auto-assignment table (§4.2), for refinement claims -/

/-- Modelled from the spec's words (§4.2): an ordered keyword table,
each row a list of keywords and a target role, evaluated top-to-bottom.
Used only to compare the spec's described heuristic with the code. -/
def tableAssign (table : List (List String × String)) (agents : List Agent)
    (job_description : String) : String :=
  let job_lower := lowerStr job_description
  match table.find? (fun row => row.1.any (fun w => containsSub job_lower w)) with
  | some row =>
      match agents.find? (fun a => a.role = row.2) with
      | some a => a.name
      | none => "general_assistant"
  | none => "general_assistant"

/-- The four-row table the claim (and spec §4.2) describes. -/
def claimKeywordTable : List (List String × String) :=
  [ (["test", "qa", "quality", "validate", "verify"], "QA"),
    (["debug", "fix", "error", "bug"], "Debug"),
    (["analyze", "review", "audit", "inspect"], "Analyze"),
    (["code", "develop", "implement", "create"], "Developer") ]

/-- The three-row table the service dispatch path actually implements. -/
def serviceKeywordTable : List (List String × String) :=
  [ (["test", "qa", "quality", "validate", "verify"], "QA"),
    (["debug", "fix", "error", "bug"], "Debug"),
    (["analyze", "review", "audit", "inspect"], "Analyze") ]

/-- The four-row table the legacy `main.py` path implements (note the
`Debugger`/`Analyzer` role names). -/
def legacyKeywordTable : List (List String × String) :=
  [ (["test", "qa", "quality", "validate", "verify"], "QA"),
    (["debug", "fix", "error", "bug"], "Debugger"),
    (["analyze", "review", "audit", "inspect"], "Analyzer"),
    (["code", "develop", "implement", "create"], "Developer") ]

/-! ## Concrete fixtures used by witnesses and counterexamples -/

/-- A registered `Developer`-role agent. -/
def devAgent : Agent :=
  { name := "dev_bot", role := "Developer", created_at := some 1 }

/-- A store holding only `dev_bot`. -/
def devStore : Store :=
  { agents := [("dev_bot", devAgent)], agentsIndex := [("dev_bot", 1)] }

/-- A two-step running workflow with no matching results, as stored by
`orchestrate_multi_agent` for a non-QA task. -/
def wfPending : Workflow :=
  { workflow_id := "w1", original_task := "write docs", status := "running"
    qa_enabled := false, created_at := 3
    steps :=
      [ { step := "admin_analysis", agent := "general_assistant"
          job_id := "j1", status := "queued" },
        { step := "specialist_execution", agent := "general_assistant"
          job_id := "j2", status := "queued", depends_on := some "j1" } ] }

/-- A store holding `wfPending` and no results. -/
def wfPendingStore : Store :=
  { workflows := [("w1", wfPending)], workflowsIndex := [("w1", 3)] }

/-- A store holding `wfPending` together with a result for each step. -/
def wfDoneStore : Store :=
  { workflows := [("w1", wfPending)], workflowsIndex := [("w1", 3)]
    results :=
      [ ("j1", { job_id := "j1", output := some "plan", timestamp := some 4 }),
        ("j2", { job_id := "j2", output := some "docs", timestamp := some 5 }) ] }

/-- A one-agent store used as a concrete witness input. -/
def regStore : Store :=
  { agents := [("alice", { name := "alice", role := "QA", created_at := some 1 })]
    agentsIndex := [("alice", 1)] }

/-- A concrete explicit-agent high-priority dispatch request. -/
def taskA : TaskRequest :=
  { job := "fix bug", agent_name := some "alice", priority := "high" }

/-- A concrete batch of two high-priority dispatch requests. -/
def highBatch : List (String × TaskRequest) :=
  [("j1", { job := "t1", priority := "high" }), ("j2", { job := "t2", priority := "high" })]

/-- The completed workflow record written back by `get_workflow_status`
when every step has completed. -/
def completeWf (wf : Workflow) (steps : List Step) (now : Nat) : Workflow :=
  { wf with steps := steps, status := "completed", completed_at := some now }

/-- A fully completed stored workflow (a status read of it changes
nothing). -/
def wfCompleted : Workflow :=
  { workflow_id := "w1", original_task := "write docs", status := "completed"
    qa_enabled := false, created_at := 3, completed_at := some 6
    steps :=
      [ { step := "admin_analysis", agent := "general_assistant"
          job_id := "j1", status := "completed" },
        { step := "specialist_execution", agent := "general_assistant"
          job_id := "j2", status := "completed", depends_on := some "j1" } ] }

/-- A store holding only `wfCompleted`. -/
def wfCompletedStore : Store :=
  { workflows := [("w1", wfCompleted)], workflowsIndex := [("w1", 3)] }

/-! ## Association-list and sorted-set lemmas -/

theorem alookup_aset_self {α : Type} (l : List (String × α)) (k : String) (v : α) :
    alookup (aset l k v) k = some v := by
  induction l with
  | nil => simp [alookup, aset]
  | cons p rest ih =>
      obtain ⟨k', v'⟩ := p
      by_cases h : k' = k
      · simp [alookup, aset, h]
      · simp [alookup, aset, h, ih]

theorem alookup_aset_ne {α : Type} (l : List (String × α)) (k k' : String) (v : α)
    (h : k' ≠ k) : alookup (aset l k v) k' = alookup l k' := by
  have hne : ¬k = k' := fun hh => h hh.symm
  induction l with
  | nil => simp [alookup, aset, hne]
  | cons p rest ih =>
      obtain ⟨k₀, v₀⟩ := p
      by_cases h₀ : k₀ = k
      · subst h₀
        simp [alookup, aset, hne]
      · by_cases h₁ : k₀ = k'
        · subst h₁
          simp [alookup, aset, h₀]
        · simp [alookup, aset, h₀, h₁, ih]

theorem alookup_isSome_aset {α : Type} (l : List (String × α)) (k k' : String) (v : α)
    (h : (alookup l k').isSome) : (alookup (aset l k v) k').isSome := by
  by_cases hk : k' = k
  · subst hk; rw [alookup_aset_self]; rfl
  · rwa [alookup_aset_ne _ _ _ _ hk]

theorem alookup_adel_self {α : Type} (l : List (String × α)) (k : String) :
    alookup (adel l k) k = none := by
  induction l with
  | nil => rfl
  | cons p rest ih =>
      obtain ⟨k', v'⟩ := p
      by_cases h : k' = k
      · simpa [adel, h] using ih
      · simpa [adel, alookup, h] using ih

theorem alookup_adel_ne {α : Type} (l : List (String × α)) (k k' : String)
    (h : k' ≠ k) : alookup (adel l k) k' = alookup l k' := by
  induction l with
  | nil => rfl
  | cons p rest ih =>
      obtain ⟨k₀, v₀⟩ := p
      by_cases h₀ : k₀ = k
      · subst h₀
        have hne : ¬k₀ = k' := fun hh => h hh.symm
        simpa [adel, alookup, hne] using ih
      · by_cases h₁ : k₀ = k'
        · subst h₁
          simp [adel, alookup, h₀]
        · simp [adel, alookup, h₀, h₁, ih]

theorem countKey_aset_present {α : Type} (l : List (String × α)) (k : String) (v : α)
    (h : (alookup l k).isSome) : countKey (aset l k v) k = countKey l k := by
  induction l with
  | nil => simp [alookup] at h
  | cons p rest ih =>
      obtain ⟨k', v'⟩ := p
      by_cases hk : k' = k
      · simp [aset, countKey, hk, List.countP_cons]
      · simp [alookup, hk] at h
        simp [aset, countKey, hk, List.countP_cons] at ih ⊢
        exact ih h

theorem countKey_aset_absent {α : Type} (l : List (String × α)) (k : String) (v : α)
    (h : alookup l k = none) : countKey (aset l k v) k = countKey l k + 1 := by
  induction l with
  | nil => simp [aset, countKey]
  | cons p rest ih =>
      obtain ⟨k', v'⟩ := p
      by_cases hk : k' = k
      · simp [alookup, hk] at h
      · simp [alookup, hk] at h
        have ih' := ih h
        simp [aset, countKey, hk, List.countP_cons] at ih' ⊢
        omega

theorem countKey_aset_ne {α : Type} (l : List (String × α)) (k k' : String) (v : α)
    (h : k' ≠ k) : countKey (aset l k v) k' = countKey l k' := by
  have hne : ¬k = k' := fun hh => h hh.symm
  induction l with
  | nil => simp [aset, countKey, hne]
  | cons p rest ih =>
      obtain ⟨k₀, v₀⟩ := p
      by_cases h₀ : k₀ = k
      · subst h₀
        simp [aset, countKey, hne, List.countP_cons]
      · simp [aset, countKey, h₀, List.countP_cons] at ih ⊢
        omega

/-- The steps list built by `orchestrate_multi_agent` without QA, spelled
out (definitional). -/
theorem orchestrate_steps_noqa (s : Store) (now : Nat) (wid : String)
    (ids : Nat → String) (job : String) (aname : Option String) (prio : String) :
    (orchestrate_multi_agent s now wid ids
        { job := job, agent_name := aname, priority := prio, requires_qa := false }).2.steps =
      [ { step := "admin_analysis", agent := "general_assistant"
          job_id := ids 0, status := "queued" },
        { step := "specialist_execution", agent := autoAssignAgentSync job
          job_id := ids 1, status := "queued"
          depends_on := if ids 0 = "" then none else some (ids 0) } ] := rfl

/-- The steps list built by `orchestrate_multi_agent` with QA, spelled
out (definitional). -/
theorem orchestrate_steps_qa (s : Store) (now : Nat) (wid : String)
    (ids : Nat → String) (job : String) (aname : Option String) (prio : String) :
    (orchestrate_multi_agent s now wid ids
        { job := job, agent_name := aname, priority := prio, requires_qa := true }).2.steps =
      [ { step := "admin_analysis", agent := "general_assistant"
          job_id := ids 0, status := "queued" },
        { step := "specialist_execution", agent := autoAssignAgentSync job
          job_id := ids 1, status := "queued"
          depends_on := if ids 0 = "" then none else some (ids 0) },
        { step := "qa_validation", agent := "qa_bot"
          job_id := ids 2, status := "queued"
          depends_on := if ids 1 = "" then none else some (ids 1) },
        { step := "admin_feedback", agent := "general_assistant"
          job_id := ids 3, status := "queued"
          depends_on := if ids 2 = "" then none else some (ids 2) } ] := rfl

/-! ## Claims -/

/-- C2: every workflow-creation call stores a workflow with exactly 2
steps (`admin_analysis`, `specialist_execution`) when `requires_qa` is
false and exactly 4 steps (`admin_analysis`, `specialist_execution`,
`qa_validation`, `admin_feedback`) when it is true, and every step after
the first has `depends_on` equal to the previous step's `job_id`.
(`hids`: `uuid4()` ids are non-empty strings.) -/
theorem claim_c2_workflow_step_chain (s : Store) (now : Nat) (wid : String)
    (ids : Nat → String) (task : TaskRequest) (hids : ∀ n, ids n ≠ "") :
    ∃ wf, alookup (orchestrate_multi_agent s now wid ids task).1.workflows wid = some wf ∧
      wf.steps.map Step.step =
        (if task.requires_qa then
          ["admin_analysis", "specialist_execution", "qa_validation", "admin_feedback"]
         else ["admin_analysis", "specialist_execution"]) ∧
      wf.steps.length = (if task.requires_qa then 4 else 2) ∧
      ∀ (i : Nat) (h : i + 1 < wf.steps.length),
        (wf.steps.get ⟨i + 1, h⟩).depends_on =
          some (wf.steps.get ⟨i, Nat.lt_of_succ_lt h⟩).job_id := by
  obtain ⟨job, aname, prio, rq⟩ := task
  cases rq with
  | false =>
      refine ⟨{ workflow_id := wid, original_task := job
                steps :=
                  [ { step := "admin_analysis", agent := "general_assistant"
                      job_id := ids 0, status := "queued" },
                    { step := "specialist_execution", agent := autoAssignAgentSync job
                      job_id := ids 1, status := "queued"
                      depends_on := if ids 0 = "" then none else some (ids 0) } ]
                status := "running", qa_enabled := false, created_at := now },
        alookup_aset_self _ _ _, rfl, rfl, ?_⟩
      intro i h
      simp only [List.length_cons, List.length_nil] at h
      have hi : i = 0 := by omega
      subst hi
      show (if ids 0 = "" then none else some (ids 0)) = some (ids 0)
      rw [if_neg (hids 0)]
  | true =>
      refine ⟨{ workflow_id := wid, original_task := job
                steps :=
                  [ { step := "admin_analysis", agent := "general_assistant"
                      job_id := ids 0, status := "queued" },
                    { step := "specialist_execution", agent := autoAssignAgentSync job
                      job_id := ids 1, status := "queued"
                      depends_on := if ids 0 = "" then none else some (ids 0) },
                    { step := "qa_validation", agent := "qa_bot"
                      job_id := ids 2, status := "queued"
                      depends_on := if ids 1 = "" then none else some (ids 1) },
                    { step := "admin_feedback", agent := "general_assistant"
                      job_id := ids 3, status := "queued"
                      depends_on := if ids 2 = "" then none else some (ids 2) } ]
                status := "running", qa_enabled := true, created_at := now },
        alookup_aset_self _ _ _, rfl, rfl, ?_⟩
      intro i h
      simp only [List.length_cons, List.length_nil] at h
      rcases i with _ | _ | _ | i
      · show (if ids 0 = "" then none else some (ids 0)) = some (ids 0)
        rw [if_neg (hids 0)]
      · show (if ids 1 = "" then none else some (ids 1)) = some (ids 1)
        rw [if_neg (hids 1)]
      · show (if ids 2 = "" then none else some (ids 2)) = some (ids 2)
        rw [if_neg (hids 2)]
      · exact absurd h (by omega)

/-- Witness for C2 at a concrete input (QA chain enabled). -/
theorem claim_c2_workflow_step_chain_witness :
    ∃ wf, alookup (orchestrate_multi_agent {} 9 "w" (fun _ => "id")
        { job := "write docs", requires_qa := true }).1.workflows "w" = some wf ∧
      wf.steps.map Step.step =
        (if ({ job := "write docs", requires_qa := true } : TaskRequest).requires_qa then
          ["admin_analysis", "specialist_execution", "qa_validation", "admin_feedback"]
         else ["admin_analysis", "specialist_execution"]) ∧
      wf.steps.length =
        (if ({ job := "write docs", requires_qa := true } : TaskRequest).requires_qa
         then 4 else 2) ∧
      ∀ (i : Nat) (h : i + 1 < wf.steps.length),
        (wf.steps.get ⟨i + 1, h⟩).depends_on =
          some (wf.steps.get ⟨i, Nat.lt_of_succ_lt h⟩).job_id :=
  claim_c2_workflow_step_chain {} 9 "w" (fun _ => "id")
    { job := "write docs", requires_qa := true }
    (fun _ => (by decide : ("id" : String) ≠ ""))

/-- C4 counterexample: via the service registration path
(`agent_routes.register_agent` → `AgentService.create_agent`), a second
register call with an identical agent name does not fail and does not
leave the first record unchanged — it silently overwrites it. -/
theorem claim_c4_counterexample :
    alookup (create_agent {} 1 { name := "bob", role := "QA" }).agents "bob" =
      some { name := "bob", role := "QA", created_at := some 1, task_count := 0 } ∧
    alookup (create_agent (create_agent {} 1 { name := "bob", role := "QA" }) 2
        { name := "bob", role := "Debug" }).agents "bob" =
      some { name := "bob", role := "Debug", created_at := some 2, task_count := 0 } ∧
    alookup (create_agent (create_agent {} 1 { name := "bob", role := "QA" }) 2
        { name := "bob", role := "Debug" }).agents "bob" ≠
      alookup (create_agent {} 1 { name := "bob", role := "QA" }).agents "bob" := by
  refine ⟨rfl, rfl, ?_⟩
  decide

/-- C4 (amended): the service registration path applies no name
normalization and no duplicate check: a second register call whose agent
name equals the first (even character-for-character) succeeds and
replaces the stored record, resetting `task_count` to 0 and restamping
`created_at`.  (Only the legacy `main.py` `/register_agent` endpoint
rejects duplicates, after lower-casing and replacing spaces with
underscores.) -/
theorem claim_c4_register_overwrites (s : Store) (t1 t2 : Nat) (a b : Agent)
    (hn : b.name = a.name) :
    alookup (create_agent (create_agent s t1 a) t2 b).agents a.name =
      some { b with created_at := some t2, task_count := 0 } := by
  rw [← hn]
  exact alookup_aset_self _ _ _

/-- Witness for the amended C4 at concrete agents. -/
theorem claim_c4_register_overwrites_witness :
    alookup (create_agent (create_agent {} 1 { name := "bob", role := "QA" }) 2
        { name := "bob", role := "Debug" }).agents
      (Agent.name { name := "bob", role := "QA" }) =
      some { ({ name := "bob", role := "Debug" } : Agent) with
              created_at := some 2, task_count := 0 } :=
  claim_c4_register_overwrites {} 1 2 { name := "bob", role := "QA" }
    { name := "bob", role := "Debug" } rfl

/-! ### Count lemmas for the bootstrap-idempotence claim -/

theorem countKey_eq_zero_of_alookup_none {α : Type} (l : List (String × α)) (k : String)
    (h : alookup l k = none) : countKey l k = 0 := by
  induction l with
  | nil => rfl
  | cons p rest ih =>
      obtain ⟨k', v'⟩ := p
      by_cases hk : k' = k
      · simp [alookup, hk] at h
      · simp [alookup, hk] at h
        simp [countKey, List.countP_cons, hk] at ih ⊢
        exact ih h

theorem countKey_pos_of_alookup_isSome {α : Type} (l : List (String × α)) (k : String)
    (h : (alookup l k).isSome) : 1 ≤ countKey l k := by
  induction l with
  | nil => simp [alookup] at h
  | cons p rest ih =>
      obtain ⟨k', v'⟩ := p
      by_cases hk : k' = k
      · simp [countKey, List.countP_cons, hk]
      · simp [alookup, hk] at h
        have h' := ih h
        simpa [countKey, List.countP_cons, hk] using h'

theorem ensureAgent_lookup_self (s : Store) (t : Nat) (a : Agent) :
    (alookup (ensureAgent s t a).agents a.name).isSome := by
  unfold ensureAgent create_agent
  split
  · assumption
  · dsimp only
    rw [alookup_aset_self]
    rfl

theorem ensureAgent_lookup_mono (s : Store) (t : Nat) (a : Agent) (n : String)
    (h : (alookup s.agents n).isSome) :
    (alookup (ensureAgent s t a).agents n).isSome := by
  unfold ensureAgent create_agent
  split
  · exact h
  · dsimp only
    exact alookup_isSome_aset _ _ _ _ h

theorem ensureAgent_skip (s : Store) (t : Nat) (a : Agent)
    (h : (alookup s.agents a.name).isSome) : ensureAgent s t a = s := by
  unfold ensureAgent
  rw [if_pos h]

theorem countKey_ensureAgent_self (s : Store) (t : Nat) (a : Agent)
    (h : countKey s.agents a.name ≤ 1) :
    countKey (ensureAgent s t a).agents a.name = 1 := by
  unfold ensureAgent create_agent
  split
  · have h1 := countKey_pos_of_alookup_isSome s.agents a.name (by assumption)
    omega
  · dsimp only
    rename_i hnone
    have hn2 : alookup s.agents a.name = none := by
      rcases hcase : alookup s.agents a.name with _ | v
      · rfl
      · rw [hcase] at hnone
        simp at hnone
    rw [countKey_aset_absent _ _ _ hn2, countKey_eq_zero_of_alookup_none _ _ hn2]

theorem countKey_ensureAgent_ne (s : Store) (t : Nat) (a : Agent) (n : String)
    (h : n ≠ a.name) :
    countKey (ensureAgent s t a).agents n = countKey s.agents n := by
  unfold ensureAgent create_agent
  split
  · rfl
  · dsimp only
    exact countKey_aset_ne _ _ _ _ h

/-- `create_default_agents` unfolded over its literal agent list. -/
theorem create_default_agents_expand (s : Store) (t : Nat) :
    create_default_agents s t =
      ensureAgent (ensureAgent (ensureAgent (ensureAgent s t gaAgent) t azAgent)
        t qaAgentRec) t dbAgent := rfl

/-- C8: `create_default_agents` (`ensure_defaults`) is idempotent:
a second call leaves the whole store unchanged, and after the two calls
there is exactly one agent record for each default name.  (`hnd`: the
store holds at most one record per key, as real Redis guarantees.) -/
theorem claim_c8_defaults_idempotent (s : Store) (t1 t2 : Nat)
    (hnd : ∀ n, countKey s.agents n ≤ 1) :
    create_default_agents (create_default_agents s t1) t2 = create_default_agents s t1 ∧
    ∀ n ∈ (["general_assistant", "analyzer_bot", "qa_bot", "debugger_bot"] : List String),
      countKey (create_default_agents (create_default_agents s t1) t2).agents n = 1 := by
  have hga : (alookup (create_default_agents s t1).agents gaAgent.name).isSome := by
    rw [create_default_agents_expand]
    exact ensureAgent_lookup_mono _ _ _ _
      (ensureAgent_lookup_mono _ _ _ _
        (ensureAgent_lookup_mono _ _ _ _ (ensureAgent_lookup_self _ _ _)))
  have haz : (alookup (create_default_agents s t1).agents azAgent.name).isSome := by
    rw [create_default_agents_expand]
    exact ensureAgent_lookup_mono _ _ _ _
      (ensureAgent_lookup_mono _ _ _ _ (ensureAgent_lookup_self _ _ _))
  have hqa : (alookup (create_default_agents s t1).agents qaAgentRec.name).isSome := by
    rw [create_default_agents_expand]
    exact ensureAgent_lookup_mono _ _ _ _ (ensureAgent_lookup_self _ _ _)
  have hdb : (alookup (create_default_agents s t1).agents dbAgent.name).isSome := by
    rw [create_default_agents_expand]
    exact ensureAgent_lookup_self _ _ _
  have hid : create_default_agents (create_default_agents s t1) t2 =
      create_default_agents s t1 := by
    conv_lhs => rw [create_default_agents_expand]
    rw [ensureAgent_skip _ _ _ hga, ensureAgent_skip _ _ _ haz,
        ensureAgent_skip _ _ _ hqa, ensureAgent_skip _ _ _ hdb]
  have hcga : countKey (create_default_agents s t1).agents gaAgent.name = 1 := by
    rw [create_default_agents_expand,
        countKey_ensureAgent_ne _ _ _ _ (by decide),
        countKey_ensureAgent_ne _ _ _ _ (by decide),
        countKey_ensureAgent_ne _ _ _ _ (by decide)]
    exact countKey_ensureAgent_self _ _ _ (hnd _)
  have hcaz : countKey (create_default_agents s t1).agents azAgent.name = 1 := by
    rw [create_default_agents_expand,
        countKey_ensureAgent_ne _ _ _ _ (by decide),
        countKey_ensureAgent_ne _ _ _ _ (by decide)]
    refine countKey_ensureAgent_self _ _ _ ?_
    rw [countKey_ensureAgent_ne _ _ _ _ (by decide)]
    exact hnd _
  have hcqa : countKey (create_default_agents s t1).agents qaAgentRec.name = 1 := by
    rw [create_default_agents_expand,
        countKey_ensureAgent_ne _ _ _ _ (by decide)]
    refine countKey_ensureAgent_self _ _ _ ?_
    rw [countKey_ensureAgent_ne _ _ _ _ (by decide),
        countKey_ensureAgent_ne _ _ _ _ (by decide)]
    exact hnd _
  have hcdb : countKey (create_default_agents s t1).agents dbAgent.name = 1 := by
    rw [create_default_agents_expand]
    refine countKey_ensureAgent_self _ _ _ ?_
    rw [countKey_ensureAgent_ne _ _ _ _ (by decide),
        countKey_ensureAgent_ne _ _ _ _ (by decide),
        countKey_ensureAgent_ne _ _ _ _ (by decide)]
    exact hnd _
  refine ⟨hid, ?_⟩
  intro n hn
  rw [hid]
  fin_cases hn
  · exact hcga
  · exact hcaz
  · exact hcqa
  · exact hcdb

/-- Witness for C8 on the empty store. -/
theorem claim_c8_defaults_idempotent_witness :
    create_default_agents (create_default_agents {} 1) 2 = create_default_agents {} 1 ∧
    ∀ n ∈ (["general_assistant", "analyzer_bot", "qa_bot", "debugger_bot"] : List String),
      countKey (create_default_agents (create_default_agents {} 1) 2).agents n = 1 :=
  claim_c8_defaults_idempotent {} 1 2 (fun _ => by simp [countKey])

/-- C10: `delete_agent` removes only the primary `agent:{name}` record:
the agents time index (and every other store component) is untouched;
afterwards `get_agent` returns nothing and `list_agents` omits the
deleted name, because listing drops index entries whose primary record is
missing.  (`hwf`: every stored agent record is keyed by its own name, as
`create_agent` guarantees.) -/
theorem claim_c10_delete_only_record (s : Store) (name : String)
    (hwf : ∀ k a, alookup s.agents k = some a → a.name = k) :
    (delete_agent s name).1.agentsIndex = s.agentsIndex ∧
    (delete_agent s name).1.results = s.results ∧
    (delete_agent s name).1.resultsIndex = s.resultsIndex ∧
    (delete_agent s name).1.workflows = s.workflows ∧
    (delete_agent s name).1.workflowsIndex = s.workflowsIndex ∧
    (delete_agent s name).1.queues = s.queues ∧
    (∀ k, k ≠ name → alookup (delete_agent s name).1.agents k = alookup s.agents k) ∧
    get_agent (delete_agent s name).1 name = none ∧
    ∀ a ∈ list_agents (delete_agent s name).1, a.name ≠ name := by
  refine ⟨rfl, rfl, rfl, rfl, rfl, rfl, ?_, ?_, ?_⟩
  · intro k hk
    exact alookup_adel_ne _ _ _ hk
  · show alookup (adel s.agents name) name = none
    exact alookup_adel_self _ _
  · intro a ha
    unfold list_agents at ha
    rw [List.mem_filterMap] at ha
    obtain ⟨k, _, hlook⟩ := ha
    have hag : (delete_agent s name).1.agents = adel s.agents name := rfl
    rw [hag] at hlook
    by_cases hkn : k = name
    · subst hkn
      rw [alookup_adel_self] at hlook
      cases hlook
    · rw [alookup_adel_ne _ _ _ hkn] at hlook
      rw [hwf k a hlook]
      exact hkn

/-- Witness for C10 deleting the only agent of `regStore`. -/
theorem claim_c10_delete_only_record_witness :
    (delete_agent regStore "alice").1.agentsIndex = regStore.agentsIndex ∧
    (delete_agent regStore "alice").1.results = regStore.results ∧
    (delete_agent regStore "alice").1.resultsIndex = regStore.resultsIndex ∧
    (delete_agent regStore "alice").1.workflows = regStore.workflows ∧
    (delete_agent regStore "alice").1.workflowsIndex = regStore.workflowsIndex ∧
    (delete_agent regStore "alice").1.queues = regStore.queues ∧
    (∀ k, k ≠ "alice" →
      alookup (delete_agent regStore "alice").1.agents k = alookup regStore.agents k) ∧
    get_agent (delete_agent regStore "alice").1 "alice" = none ∧
    ∀ a ∈ list_agents (delete_agent regStore "alice").1, a.name ≠ "alice" :=
  claim_c10_delete_only_record regStore "alice" (by
    intro k a h
    simp only [regStore, alookup] at h
    split at h
    · rename_i heq
      injection h with h2
      subst h2
      exact heq
    · cases h)

/-- C9: `save_result` stamps a missing-or-empty timestamp with the
current UTC time before persisting: the stored record always carries a
timestamp, its index entry always has a defined score, and a result
saved with a timestamp keeps it unchanged. -/
theorem claim_c9_save_result_timestamp (s : Store) (now : Nat) (r : ResultRec) :
    (∃ rec, alookup (save_result s now r).results r.job_id = some rec ∧
      rec.timestamp.isSome ∧
      (r.timestamp = none → rec.timestamp = some now) ∧
      ∀ t, r.timestamp = some t → rec.timestamp = some t) ∧
    ∃ score, alookup (save_result s now r).resultsIndex r.job_id = some score := by
  obtain ⟨jid, ag, ro, st, out, wfid, et, cs, ts⟩ := r
  cases ts with
  | none =>
      refine ⟨⟨_, alookup_aset_self _ _ _, ?_, ?_, ?_⟩, _, alookup_aset_self _ _ _⟩
      · rfl
      · intro _
        rfl
      · intro t ht
        simp at ht
  | some t0 =>
      refine ⟨⟨_, alookup_aset_self _ _ _, ?_, ?_, ?_⟩, _, alookup_aset_self _ _ _⟩
      · rfl
      · intro hcon
        simp at hcon
      · intro t ht
        exact ht

/-- Witness for C9: one save without a timestamp, one with. -/
theorem claim_c9_save_result_timestamp_witness :
    ((∃ rec, alookup (save_result {} 7 { job_id := "j1" }).results "j1" = some rec ∧
      rec.timestamp.isSome ∧
      (ResultRec.timestamp { job_id := "j1" } = none → rec.timestamp = some 7) ∧
      ∀ t, ResultRec.timestamp { job_id := "j1" } = some t → rec.timestamp = some t) ∧
     ∃ score, alookup (save_result {} 7 { job_id := "j1" }).resultsIndex "j1" = some score) ∧
    ((∃ rec, alookup (save_result {} 7 { job_id := "j2", timestamp := some 3 }).results "j2"
        = some rec ∧
      rec.timestamp.isSome ∧
      (ResultRec.timestamp { job_id := "j2", timestamp := some 3 } = none →
        rec.timestamp = some 7) ∧
      ∀ t, ResultRec.timestamp { job_id := "j2", timestamp := some 3 } = some t →
        rec.timestamp = some t) ∧
     ∃ score, alookup (save_result {} 7
        { job_id := "j2", timestamp := some 3 }).resultsIndex "j2" = some score) :=
  ⟨claim_c9_save_result_timestamp {} 7 { job_id := "j1" },
   claim_c9_save_result_timestamp {} 7 { job_id := "j2", timestamp := some 3 }⟩

/-! ### Queue-effect lemmas for the dispatch claim -/

theorem qlookup_qpush_self (qs : List (String × List JobPayload)) (n : String)
    (p : JobPayload) : qlookup (qpush qs n p) n = p :: qlookup qs n := by
  show (alookup (aset qs n (p :: qlookup qs n)) n).getD [] = p :: (alookup qs n).getD []
  rw [alookup_aset_self]
  rfl

theorem qlookup_qpush_ne (qs : List (String × List JobPayload)) (n n' : String)
    (p : JobPayload) (h : n' ≠ n) : qlookup (qpush qs n p) n' = qlookup qs n' := by
  show (alookup (aset qs n (p :: qlookup qs n)) n').getD [] = (alookup qs n').getD []
  rw [alookup_aset_ne _ _ _ _ h]

theorem create_agent_queues (s : Store) (t : Nat) (a : Agent) :
    (create_agent s t a).queues = s.queues := rfl

theorem ensureAgent_queues (s : Store) (t : Nat) (a : Agent) :
    (ensureAgent s t a).queues = s.queues := by
  unfold ensureAgent
  split
  · rfl
  · rfl

theorem create_default_agents_queues (s : Store) (t : Nat) :
    (create_default_agents s t).queues = s.queues := by
  rw [create_default_agents_expand, ensureAgent_queues, ensureAgent_queues,
    ensureAgent_queues, ensureAgent_queues]

theorem autoAssignAgent_queues (s : Store) (now : Nat) (job : String) :
    (autoAssignAgent s now job).1.queues = s.queues := by
  simp only [autoAssignAgent]
  by_cases hc : (list_agents s).isEmpty = true
  · rw [if_pos hc]
    exact create_default_agents_queues _ _
  · rw [if_neg hc]

theorem resolveAgent_queues (s : Store) (now : Nat) (task : TaskRequest) :
    (resolveAgent s now task).1.queues = s.queues := by
  obtain ⟨job, an, prio, rq⟩ := task
  cases an with
  | none => exact autoAssignAgent_queues s now job
  | some a =>
      show (if a = "" then autoAssignAgent s now job else (s, a)).1.queues = s.queues
      by_cases ha : a = ""
      · rw [if_pos ha]
        exact autoAssignAgent_queues s now job
      · rw [if_neg ha]

theorem increment_task_count_queues (s : Store) (now : Nat) (n : String) :
    (increment_task_count s now n).queues = s.queues := by
  unfold increment_task_count
  split
  · rfl
  · rfl

/-- The queue component of one `queue_task` call: exactly one payload is
pushed, onto the queue named by the task's priority. -/
theorem queue_task_queues (s : Store) (now : Nat) (jid : String) (task : TaskRequest) :
    (queue_task s now jid task).1.queues =
      qpush s.queues
        (if task.priority ≠ "normal" then "queue_" ++ task.priority else "queue")
        { job_id := jid, job := task.job, task := some task.job
          agent_name := (resolveAgent s now task).2
          priority := some task.priority, requires_qa := some task.requires_qa
          created_at := now, mode := "agent_dispatch" } := by
  show qpush (increment_task_count (resolveAgent s now task).1 now
      (resolveAgent s now task).2).queues _ _ = _
  rw [increment_task_count_queues, resolveAgent_queues]

/-- The queue name returned by `queue_task`. -/
theorem queue_task_qname (s : Store) (now : Nat) (jid : String) (task : TaskRequest) :
    (queue_task s now jid task).2.2 =
      (if task.priority ≠ "normal" then "queue_" ++ task.priority else "queue") := rfl

theorem increment_task_count_found (s : Store) (now : Nat) (n : String) (ag : Agent)
    (h : alookup s.agents n = some ag) :
    (increment_task_count s now n).agents =
      aset s.agents n { ag with task_count := ag.task_count + 1
                                last_assigned := some now } := by
  unfold increment_task_count
  rw [h]

/-- Repeated high-priority dispatch grows `queue_high` by one entry per
job and never touches `queue` or `queue_low`. -/
theorem dispatchList_high_counts (now : Nat) :
    ∀ (l : List (String × TaskRequest)) (s : Store),
      (∀ p ∈ l, (p.2).priority = "high") →
      (qlookup (dispatchList s now l).queues "queue_high").length =
        (qlookup s.queues "queue_high").length + l.length ∧
      qlookup (dispatchList s now l).queues "queue" = qlookup s.queues "queue" ∧
      qlookup (dispatchList s now l).queues "queue_low" = qlookup s.queues "queue_low" := by
  intro l
  induction l with
  | nil => exact fun s _ => ⟨rfl, rfl, rfl⟩
  | cons p rest ih =>
      intro s hall
      obtain ⟨jid, t⟩ := p
      have hp : t.priority = "high" := hall (jid, t) (List.mem_cons_self _ _)
      have hstep := queue_task_queues s now jid t
      rw [hp] at hstep
      have hname : (if ("high" : String) ≠ "normal" then "queue_" ++ "high" else "queue")
          = "queue_high" := by decide
      rw [hname] at hstep
      have hrest := ih (queue_task s now jid t).1
        (fun q hq => hall q (List.mem_cons_of_mem _ hq))
      obtain ⟨h1, h2, h3⟩ := hrest
      refine ⟨?_, ?_, ?_⟩
      · show (qlookup (dispatchList (queue_task s now jid t).1 now rest).queues
            "queue_high").length = _
        rw [h1, hstep, qlookup_qpush_self]
        simp only [List.length_cons]
        omega
      · show qlookup (dispatchList (queue_task s now jid t).1 now rest).queues "queue" = _
        rw [h2, hstep, qlookup_qpush_ne _ _ _ _ (by decide)]
      · show qlookup (dispatchList (queue_task s now jid t).1 now rest).queues
            "queue_low" = _
        rw [h3, hstep, qlookup_qpush_ne _ _ _ _ (by decide)]

/-- C5: each dispatch pushes exactly one serialized `JobDescriptor` onto
the single queue selected by its priority (`queue` for normal,
`queue_high` for high, `queue_low` for low), leaves the other queues
untouched, and increments the target agent's `task_count`; consequently
dispatching N high-priority jobs onto empty queues yields exactly N
entries in `queue_high` and none in `queue` or `queue_low`. -/
theorem claim_c5_priority_queues :
    (∀ (s : Store) (now : Nat) (jid : String) (task : TaskRequest) (a : String) (ag : Agent),
      task.agent_name = some a → a ≠ "" → alookup s.agents a = some ag →
      (queue_task s now jid task).2.2 =
        (if task.priority ≠ "normal" then "queue_" ++ task.priority else "queue") ∧
      qlookup (queue_task s now jid task).1.queues (queue_task s now jid task).2.2 =
        ({ job_id := jid, job := task.job, task := some task.job, agent_name := a
           priority := some task.priority, requires_qa := some task.requires_qa
           created_at := now, mode := "agent_dispatch" } : JobPayload) ::
          qlookup s.queues (queue_task s now jid task).2.2 ∧
      (∀ q, q ≠ (queue_task s now jid task).2.2 →
        qlookup (queue_task s now jid task).1.queues q = qlookup s.queues q) ∧
      alookup (queue_task s now jid task).1.agents a =
        some { ag with task_count := ag.task_count + 1, last_assigned := some now }) ∧
    (∀ (now : Nat) (l : List (String × TaskRequest)) (s : Store),
      (∀ p ∈ l, (p.2).priority = "high") →
      qlookup s.queues "queue" = [] → qlookup s.queues "queue_high" = [] →
      qlookup s.queues "queue_low" = [] →
      (qlookup (dispatchList s now l).queues "queue_high").length = l.length ∧
      qlookup (dispatchList s now l).queues "queue" = [] ∧
      qlookup (dispatchList s now l).queues "queue_low" = []) := by
  constructor
  · intro s now jid task a ag han ha hag
    have hres : resolveAgent s now task = (s, a) := by
      obtain ⟨job, an, prio, rq⟩ := task
      cases an with
      | none => cases han
      | some a0 =>
          injection han with h0
          subst h0
          show (if a0 = "" then autoAssignAgent s now job else (s, a0)) = (s, a0)
          rw [if_neg ha]
    refine ⟨queue_task_qname _ _ _ _, ?_, ?_, ?_⟩
    · rw [queue_task_qname, queue_task_queues, hres, qlookup_qpush_self]
    · intro q hq
      rw [queue_task_qname] at hq
      rw [queue_task_queues, qlookup_qpush_ne _ _ _ _ hq]
    · have hagents : (queue_task s now jid task).1.agents =
          (increment_task_count (resolveAgent s now task).1 now
            (resolveAgent s now task).2).agents := rfl
      rw [hagents, hres]
      show alookup (increment_task_count s now a).agents a = _
      rw [increment_task_count_found s now a ag hag]
      exact alookup_aset_self _ _ _
  · intro now l s hall hq hqh hql
    obtain ⟨h1, h2, h3⟩ := dispatchList_high_counts now l s hall
    refine ⟨?_, ?_, ?_⟩
    · rw [h1, hqh]
      simp
    · rw [h2, hq]
    · rw [h3, hql]

/-- Witness for C5: one explicit high-priority dispatch against
`regStore`, and a two-job high-priority batch on the empty store. -/
theorem claim_c5_priority_queues_witness :
    ((queue_task regStore 7 "j1" taskA).2.2 =
        (if taskA.priority ≠ "normal" then "queue_" ++ taskA.priority else "queue") ∧
      qlookup (queue_task regStore 7 "j1" taskA).1.queues (queue_task regStore 7 "j1" taskA).2.2 =
        ({ job_id := "j1", job := taskA.job, task := some taskA.job, agent_name := "alice"
           priority := some taskA.priority, requires_qa := some taskA.requires_qa
           created_at := 7, mode := "agent_dispatch" } : JobPayload) ::
          qlookup regStore.queues (queue_task regStore 7 "j1" taskA).2.2 ∧
      (∀ q, q ≠ (queue_task regStore 7 "j1" taskA).2.2 →
        qlookup (queue_task regStore 7 "j1" taskA).1.queues q = qlookup regStore.queues q) ∧
      alookup (queue_task regStore 7 "j1" taskA).1.agents "alice" =
        some { ({ name := "alice", role := "QA", created_at := some 1 } : Agent) with
                task_count := 1, last_assigned := some 7 }) ∧
    ((qlookup (dispatchList {} 7 highBatch).queues "queue_high").length = highBatch.length ∧
      qlookup (dispatchList {} 7 highBatch).queues "queue" = [] ∧
      qlookup (dispatchList {} 7 highBatch).queues "queue_low" = []) :=
  ⟨claim_c5_priority_queues.1 regStore 7 "j1" taskA "alice"
      { name := "alice", role := "QA", created_at := some 1 } rfl (by decide) rfl,
   claim_c5_priority_queues.2 7 highBatch {} (by decide) rfl rfl rfl⟩

/-! ### Step-refresh lemmas for the workflow claims -/

theorem refreshStep_completed (s : Store) (st : Step)
    (h : (alookup s.results st.job_id).isSome) :
    (refreshStep s st).1.status = "completed" ∧ (refreshStep s st).2.1 = true := by
  unfold refreshStep
  by_cases hc : st.status = "completed"
  · rw [if_pos hc]
    exact ⟨hc, rfl⟩
  · rw [if_neg hc]
    obtain ⟨res, hres⟩ := Option.isSome_iff_exists.mp h
    rw [hres]
    exact ⟨rfl, rfl⟩

theorem refreshSteps_all_completed (s : Store) :
    ∀ steps : List Step, (∀ st ∈ steps, (alookup s.results st.job_id).isSome) →
      (refreshSteps s steps).2.1 = steps.length ∧
      (refreshSteps s steps).1.length = steps.length ∧
      ∀ st' ∈ (refreshSteps s steps).1, st'.status = "completed" := by
  intro steps
  induction steps with
  | nil => exact fun _ => ⟨rfl, rfl, fun _ h => absurd h (List.not_mem_nil _)⟩
  | cons st rest ih =>
      intro hall
      obtain ⟨hs1, hs2⟩ := refreshStep_completed s st (hall st (List.mem_cons_self _ _))
      obtain ⟨h1, h2, h3⟩ := ih (fun q hq => hall q (List.mem_cons_of_mem _ hq))
      refine ⟨?_, ?_, ?_⟩
      · show (if (refreshStep s st).2.1 then 1 else 0) + (refreshSteps s rest).2.1 =
          rest.length + 1
        rw [hs2, if_pos rfl, h1]
        omega
      · show ((refreshStep s st).1 :: (refreshSteps s rest).1).length = rest.length + 1
        rw [List.length_cons, h2]
      · intro st' hmem
        rcases List.mem_cons.mp hmem with heq | hmem2
        · rw [heq]
          exact hs1
        · exact h3 st' hmem2

/-- C1: a single `get_workflow_status` call on a stored running workflow
all of whose steps have a matching result record marks every step
`completed`, sets the workflow status to `completed` with a non-null
`completed_at`, and persists the updated record back to the store. -/
theorem claim_c1_workflow_completion (s : Store) (now : Nat) (wid : String) (wf : Workflow)
    (hwf : alookup s.workflows wid = some wf)
    (hrun : wf.status = "running")
    (hres : ∀ st ∈ wf.steps, (alookup s.results st.job_id).isSome) :
    ∃ wf', alookup (get_workflow_status s now wid).1.workflows wid = some wf' ∧
      (∀ st ∈ wf'.steps, st.status = "completed") ∧
      wf'.status = "completed" ∧ wf'.completed_at = some now := by
  obtain ⟨hcount, hlen, hstatus⟩ := refreshSteps_all_completed s wf.steps hres
  have hdo : (refreshSteps s wf.steps).2.1 = (refreshSteps s wf.steps).1.length ∧
      wf.status ≠ "completed" :=
    ⟨by rw [hcount, hlen], by rw [hrun]; decide⟩
  have hmain : (get_workflow_status s now wid).1 =
      { s with workflows := aset s.workflows wid (completeWf wf (refreshSteps s wf.steps).1 now) } := by
    simp only [get_workflow_status]
    rw [hwf]
    dsimp only
    rw [if_pos hdo]
    have hch : ((refreshSteps s wf.steps).2.2 ||
        decide ((refreshSteps s wf.steps).2.1 = (refreshSteps s wf.steps).1.length ∧
          wf.status ≠ "completed")) = true := by
      rw [decide_eq_true hdo, Bool.or_true]
    rw [if_pos hch]
    rfl
  refine ⟨completeWf wf (refreshSteps s wf.steps).1 now, ?_, ?_, rfl, rfl⟩
  · rw [hmain]
    exact alookup_aset_self _ _ _
  · exact fun st h => hstatus st h

/-- Witness for C1 on a stored two-step workflow with both results present. -/
theorem claim_c1_workflow_completion_witness :
    ∃ wf', alookup (get_workflow_status wfDoneStore 7 "w1").1.workflows "w1" = some wf' ∧
      (∀ st ∈ wf'.steps, st.status = "completed") ∧
      wf'.status = "completed" ∧ wf'.completed_at = some 7 :=
  claim_c1_workflow_completion wfDoneStore 7 "w1" wfPending rfl rfl (by decide)

/-- `get_workflow_status` either leaves the store unchanged or rewrites
exactly the workflow's own key. -/
theorem gws_shape (s : Store) (now : Nat) (wid : String) :
    (get_workflow_status s now wid).1 = s ∨
    ∃ wf2, (get_workflow_status s now wid).1 =
      { s with workflows := aset s.workflows wid wf2 } := by
  simp only [get_workflow_status]
  cases halt : alookup s.workflows wid with
  | none => left; rfl
  | some wf =>
      dsimp only
      split
      · right
        exact ⟨_, rfl⟩
      · left
        rfl

/-- C7 counterexample: a status read that does not complete the workflow
(both steps lack results, the returned status is still `running`) does
NOT leave the stored record unchanged — the queued→processing relabel is
written back. -/
theorem claim_c7_counterexample :
    (get_workflow_status wfPendingStore 7 "w1").2.map Workflow.status = some "running" ∧
    alookup (get_workflow_status wfPendingStore 7 "w1").1.workflows "w1" ≠ some wfPending ∧
    alookup wfPendingStore.workflows "w1" = some wfPending := by
  refine ⟨rfl, ?_, rfl⟩
  decide

/-- C7 (amended): `get_workflow_status` writes the refreshed record back
whenever any step's status changed (a completion or a queued→processing
relabel) or the workflow newly completed — not only at the completed
transition; a call that changes nothing leaves the store unchanged, and
no call ever touches a key other than the workflow's own. -/
theorem claim_c7_status_read_writes (s : Store) (now : Nat) (wid : String) :
    (get_workflow_status s now wid).1.agents = s.agents ∧
    (get_workflow_status s now wid).1.agentsIndex = s.agentsIndex ∧
    (get_workflow_status s now wid).1.results = s.results ∧
    (get_workflow_status s now wid).1.resultsIndex = s.resultsIndex ∧
    (get_workflow_status s now wid).1.workflowsIndex = s.workflowsIndex ∧
    (get_workflow_status s now wid).1.queues = s.queues ∧
    (∀ k, k ≠ wid → alookup (get_workflow_status s now wid).1.workflows k =
      alookup s.workflows k) ∧
    (∀ wf, alookup s.workflows wid = some wf →
      (refreshSteps s wf.steps).2.2 = false →
      ¬((refreshSteps s wf.steps).2.1 = (refreshSteps s wf.steps).1.length ∧
        wf.status ≠ "completed") →
      (get_workflow_status s now wid).1 = s) := by
  have hcomp := gws_shape s now wid
  refine ⟨?_, ?_, ?_, ?_, ?_, ?_, ?_, ?_⟩
  · rcases hcomp with h | ⟨wf2, h⟩ <;> rw [h]
  · rcases hcomp with h | ⟨wf2, h⟩ <;> rw [h]
  · rcases hcomp with h | ⟨wf2, h⟩ <;> rw [h]
  · rcases hcomp with h | ⟨wf2, h⟩ <;> rw [h]
  · rcases hcomp with h | ⟨wf2, h⟩ <;> rw [h]
  · rcases hcomp with h | ⟨wf2, h⟩ <;> rw [h]
  · intro k hk
    rcases hcomp with h | ⟨wf2, h⟩
    · rw [h]
    · rw [h]
      exact alookup_aset_ne _ _ _ _ hk
  · intro wf hwf hch hnc
    simp only [get_workflow_status]
    rw [hwf]
    dsimp only
    rw [hch, decide_eq_false hnc]
    rfl

/-- Witness for the amended C7: a status read of an already-completed
workflow performs no store write at all. -/
theorem claim_c7_status_read_writes_witness :
    (get_workflow_status wfCompletedStore 7 "w1").1 = wfCompletedStore :=
  (claim_c7_status_read_writes wfCompletedStore 7 "w1").2.2.2.2.2.2.2 wfCompleted rfl
    (by decide) (by decide)

/-- The legacy chain's `next(..., default)` shape, as a match. -/
theorem optNameGetD (o : Option Agent) :
    (o.map Agent.name).getD "general_assistant" =
      match o with
      | some a => a.name
      | none => "general_assistant" := by
  cases o <;> rfl

/-- C3 counterexample: a text matching only the claimed fourth keyword
row (`implement`) is routed to `general_assistant` by the service
dispatch path even though a `Developer`-role agent is registered; the
claimed four-row table would route it to that agent. -/
theorem claim_c3_counterexample :
    (autoAssignAgent devStore 5 "implement the feature").2 = "general_assistant" ∧
    assignFromAgents [devAgent] "implement the feature" = "general_assistant" ∧
    tableAssign claimKeywordTable [devAgent] "implement the feature" = "dev_bot" ∧
    ("general_assistant" : String) ≠ "dev_bot" := by
  refine ⟨?_, ?_, ?_, ?_⟩ <;> decide

/-- C3 (amended): the service dispatch path lower-cases the job text and
evaluates a THREE-row keyword table in fixed order (QA, Debug, Analyze
roles) — it has no Developer row, so developer-keyword texts fall through
to `general_assistant`; the legacy `main.py` path evaluates the four-row
table but against the role names `Debugger`/`Analyzer`/`Developer`. -/
theorem claim_c3_keyword_tables :
    (∀ (s : Store) (now : Nat) (job : String),
      (list_agents s).isEmpty = false →
      (autoAssignAgent s now job).2 = tableAssign serviceKeywordTable (list_agents s) job) ∧
    (∀ (agents : List Agent) (job : String),
      assignFromAgents agents job = tableAssign serviceKeywordTable agents job) ∧
    (∀ (agents : List Agent) (job : String),
      mainAutoAssign agents job = tableAssign legacyKeywordTable agents job) := by
  have hsvc : ∀ (agents : List Agent) (job : String),
      assignFromAgents agents job = tableAssign serviceKeywordTable agents job := by
    intro agents job
    simp only [assignFromAgents, tableAssign, serviceKeywordTable]
    cases h1 : ["test", "qa", "quality", "validate", "verify"].any
        (fun w => containsSub (lowerStr job) w) <;>
      cases h2 : ["debug", "fix", "error", "bug"].any
          (fun w => containsSub (lowerStr job) w) <;>
        cases h3 : ["analyze", "review", "audit", "inspect"].any
            (fun w => containsSub (lowerStr job) w) <;>
          simp [List.find?, h1, h2, h3]
  have hlegacy : ∀ (agents : List Agent) (job : String),
      mainAutoAssign agents job = tableAssign legacyKeywordTable agents job := by
    intro agents job
    simp only [mainAutoAssign, tableAssign, legacyKeywordTable]
    cases h1 : ["test", "qa", "quality", "validate", "verify"].any
        (fun w => containsSub (lowerStr job) w) <;>
      cases h2 : ["debug", "fix", "error", "bug"].any
          (fun w => containsSub (lowerStr job) w) <;>
        cases h3 : ["analyze", "review", "audit", "inspect"].any
            (fun w => containsSub (lowerStr job) w) <;>
          cases h4 : ["code", "develop", "implement", "create"].any
              (fun w => containsSub (lowerStr job) w) <;>
            simp [List.find?, h1, h2, h3, h4, optNameGetD]
  refine ⟨?_, hsvc, hlegacy⟩
  intro s now job hne
  show (if (list_agents s).isEmpty = true then (create_default_agents s now, "general_assistant")
    else (s, assignFromAgents (list_agents s) job)).2 = _
  rw [if_neg (by simp [hne]), hsvc]

/-- Witness for the amended C3: the fallthrough input on the store-level
dispatch path. -/
theorem claim_c3_keyword_tables_witness :
    (autoAssignAgent devStore 5 "implement the feature").2 =
      tableAssign serviceKeywordTable (list_agents devStore) "implement the feature" :=
  claim_c3_keyword_tables.1 devStore 5 "implement the feature" rfl

/-- `_iso_to_ts(ts) or now` on a positive parsed timestamp is the
timestamp itself. -/
theorem pyOr_pos (t d : Nat) (h : 0 < t) : pyOr (some t) d = t := by
  cases t with
  | zero => exact absurd h (by omega)
  | succ n => rfl

/-- C6 counterexample: with results saved at timestamps 1 and 2,
`list_results` returns the timestamp-2 result FIRST (descending order);
the result with the smaller timestamp T=1 does not appear before the
T+1=2 one, contrary to the claim's wording. -/
theorem claim_c6_counterexample :
    ((list_results (store_result (store_result {} 9 "j1"
        { job_id := "j1", timestamp := some 1 }) 9 "j2"
        { job_id := "j2", timestamp := some 2 }) 2).map ResultRec.timestamp =
      [some 2, some 1]) ∧
    ¬ ((list_results (store_result (store_result {} 9 "j1"
        { job_id := "j1", timestamp := some 1 }) 9 "j2"
        { job_id := "j2", timestamp := some 2 }) 2).findIdx
          (fun r => r.timestamp == some 1) <
        (list_results (store_result (store_result {} 9 "j1"
          { job_id := "j1", timestamp := some 1 }) 9 "j2"
          { job_id := "j2", timestamp := some 2 }) 2).findIdx
          (fun r => r.timestamp == some 2)) := by
  refine ⟨?_, ?_⟩ <;> decide

/-- C6 (amended): the results index scores each result by its own
timestamp field, so for two results saved with timestamps T and T+1 the
result with the LARGER timestamp T+1 appears before the T one in
`list_results (limit ≥ 2)` — descending time order — regardless of the
order in which the two saves were issued.  (`hT`: real epoch timestamps
are positive, avoiding the Python falsy-zero fallback.) -/
theorem claim_c6_descending (s : Store) (now T : Nat) (j1 j2 : String)
    (r1 r2 : ResultRec)
    (hT : 0 < T) (hj : j1 ≠ j2)
    (hres : s.results = []) (hidx : s.resultsIndex = [])
    (ht1 : r1.timestamp = some T) (ht2 : r2.timestamp = some (T + 1)) :
    (list_results (store_result (store_result s now j1 r1) now j2 r2) 2).map
        ResultRec.timestamp = [some (T + 1), some T] ∧
    (list_results (store_result (store_result s now j2 r2) now j1 r1) 2).map
        ResultRec.timestamp = [some (T + 1), some T] := by
  obtain ⟨j1f, ag1, ro1, st1, out1, wid1, et1, cs1, ts1⟩ := r1
  obtain ⟨j2f, ag2, ro2, st2, out2, wid2, et2, cs2, ts2⟩ := r2
  dsimp only at ht1 ht2
  subst ht1
  subst ht2
  have hj' : j2 ≠ j1 := Ne.symm hj
  have hsc : pyOr (some T) now = T := pyOr_pos T now hT
  have hlt1 : ¬ (T + 1 < T) := by omega
  have hne : ¬ (T = T + 1) := by omega
  have hlt2 : T < T + 1 := by omega
  have hsc2 : pyOr (some (T + 1)) now = T + 1 := rfl
  constructor
  · simp only [store_result, list_results, zrevrangeN, zadd]
    rw [hres, hidx]
    simp [aset, alookup, sortDesc, insDesc, hj, hj', hlt1, hne, hlt2, hsc, hsc2]
  · simp only [store_result, list_results, zrevrangeN, zadd]
    rw [hres, hidx]
    simp [aset, alookup, sortDesc, insDesc, hj, hj', hlt1, hne, hlt2, hsc, hsc2]

/-- Witness for the amended C6 at T = 1 on the empty store. -/
theorem claim_c6_descending_witness :
    (list_results (store_result (store_result {} 9 "j1"
        { job_id := "j1", timestamp := some 1 }) 9 "j2"
        { job_id := "j2", timestamp := some 2 }) 2).map ResultRec.timestamp =
      [some 2, some 1] ∧
    (list_results (store_result (store_result {} 9 "j2"
        { job_id := "j2", timestamp := some 2 }) 9 "j1"
        { job_id := "j1", timestamp := some 1 }) 2).map ResultRec.timestamp =
      [some 2, some 1] :=
  claim_c6_descending {} 9 1 "j1" "j2" { job_id := "j1", timestamp := some 1 }
    { job_id := "j2", timestamp := some 2 } (by decide) (by decide) rfl rfl rfl rfl
